import Mathlib

/-!
Shallow embedding of the playback core of `nu_plugin_audio_hook`
(`src/audio_player.rs`): duration resolution, the interactive playback
loop of `wait_with_progress`, terminal-mode acquisition/teardown, and the
progress-bar rendering and layout math of `render_progress` / `render_bar`.

Conventions:
* `Duration` values are natural numbers of nanoseconds (`std::time::Duration`
  is an unsigned nanosecond count; `saturating_sub` is `Nat` subtraction).
* `f32`/`f64` arithmetic on volumes and bar ratios is modelled exactly over
  `ℚ`; the constants involved (`0.05`, `2.0`, cell counts) are exact, and the
  code only combines them with `+`, `-`, `*`, `min`, `max`, `floor`, `round`.
* `f64::round` rounds half away from zero; on the nonnegative inputs that
  occur here it equals `fun x => ⌊x + 1/2⌋`.
-/

namespace AudioHook

/-- One second in nanoseconds (`Duration::from_secs`). -/
def NANOS_PER_SEC : Nat := 1000000000

/-- `const SEEK_STEP: Duration = Duration::from_secs(5)` (audio_player.rs:27). -/
def SEEK_STEP : Nat := 5 * NANOS_PER_SEC

/-- `const CONTROLS_THRESHOLD: Duration = Duration::from_secs(60)` (audio_player.rs:30). -/
def CONTROLS_THRESHOLD : Nat := 60 * NANOS_PER_SEC

/-- `const VOLUME_STEP: f32 = 0.05` (audio_player.rs:33). -/
def VOLUME_STEP : ℚ := 0.05

/-- `const VOLUME_MAX: f32 = 2.0` (audio_player.rs:36). -/
def VOLUME_MAX : ℚ := 2.0

/-- The 1-hour safety fallback `Duration::from_secs(3600)` (audio_player.rs:239). -/
def FALLBACK_DURATION : Nat := 3600 * NANOS_PER_SEC

/-- `let source_duration = source.total_duration().or_else(|| tagged_file_res
.ok().map(|tf| tf.properties().duration()).filter(|d| !d.is_zero()))`
(audio_player.rs:224-229): the decoder-reported duration, else the
container-header duration with a zero value filtered out as absent. -/
def source_duration (decoderDuration headerDuration : Option Nat) : Option Nat :=
  match decoderDuration with
  | some d => some d
  | none =>
    match headerDuration with
    | some d => if d == 0 then none else some d
    | none => none

/-- A nushell flag value as far as `load_duration_from` inspects it:
a `Value::Duration` holds a signed 64-bit nanosecond count; anything else
(absent flag or other value kinds) falls into the wildcard arm. -/
inductive FlagValue where
  | duration (val : Int)
  | other
deriving DecidableEq

/-- `fn load_duration_from` (audio_player.rs:694-699): returns the flag's
nanosecond count for a nonnegative `Value::Duration`, `None` otherwise
(`val as u64` on a nonnegative `i64` is `Int.toNat`). -/
def load_duration_from (flagValue : Option FlagValue) : Option Nat :=
  match flagValue with
  | some (FlagValue.duration val) => if 0 ≤ val then some val.toNat else none
  | _ => none

/-- The `sleep_duration` match in `play_audio` (audio_player.rs:235-241):
explicit override, else the resolved source duration, else 1 hour. -/
def resolve_total_duration (override decoderDuration headerDuration : Option Nat) : Nat :=
  match override with
  | some d => d
  | none =>
    match source_duration decoderDuration headerDuration with
    | some d => d
    | none => FALLBACK_DURATION

/-- `let initial_volume = (val as f32).clamp(0.0, VOLUME_MAX)` with default
`1.0` (audio_player.rs:216-219); Rust `clamp(lo, hi)` is `min hi (max lo v)`. -/
def initial_volume (amplify : Option ℚ) : ℚ :=
  match amplify with
  | some val => min VOLUME_MAX (max 0 val)
  | none => 1

/-- `let interactive = total >= CONTROLS_THRESHOLD` (audio_player.rs:319). -/
def interactive_for (total : Nat) : Bool := CONTROLS_THRESHOLD ≤ total

/-- Volume-up update `(volume + VOLUME_STEP).min(VOLUME_MAX)` (audio_player.rs:393). -/
def volumeUp (volume : ℚ) : ℚ := min (volume + VOLUME_STEP) VOLUME_MAX

/-- Volume-down update `(volume - VOLUME_STEP).max(0.0)` (audio_player.rs:400). -/
def volumeDown (volume : ℚ) : ℚ := max (volume - VOLUME_STEP) 0

/-- The key codes the `wait_with_progress` match distinguishes
(audio_player.rs:372-422); `other` stands for every other key. -/
inductive KeyCode where
  | space | right | charL | left | charH | up | charK
  | down | charJ | charM | charQ | esc | other
deriving DecidableEq

/-- Modelled from the spec: the audio sink interface (§6) consumed from the
external audio engine — `play()`, `pause()`, `stop()`, `set_volume`,
`get_position`, `try_seek`, `is_empty`. The sink holds a playback position
(nanoseconds), an emptiness flag, a volume, and paused/stopped flags. -/
structure SinkState where
  pos : Nat
  empty : Bool
  volume : ℚ
  paused : Bool
  stopped : Bool
deriving DecidableEq

/-- Modelled from the spec: `sink.play()`. -/
def sinkPlay (s : SinkState) : SinkState := { s with paused := false }

/-- Modelled from the spec: `sink.pause()`. -/
def sinkPause (s : SinkState) : SinkState := { s with paused := true }

/-- Modelled from the spec: `sink.stop()` clears the sink, so it reports empty. -/
def sinkStop (s : SinkState) : SinkState := { s with stopped := true, empty := true }

/-- Modelled from the spec: `sink.set_volume(v)`. -/
def sinkSetVolume (v : ℚ) (s : SinkState) : SinkState := { s with volume := v }

/-- Modelled from the spec: `sink.try_seek(target)`; `ok` says whether the
underlying engine accepts the seek — on success the sink position becomes
the target, on failure the sink is unchanged. -/
def sinkTrySeek (ok : Bool) (target : Nat) (s : SinkState) : SinkState :=
  if ok then { s with pos := target } else s

/-- Modelled from the spec: `sink.get_pos()`. -/
def sinkGetPos (s : SinkState) : Nat := s.pos

/-- Modelled from the spec: playback advancing between two ticks — a playing
sink's position moves forward by however much audio was rendered; a paused or
stopped sink's position does not move. -/
def sinkAdvance (delta : Nat) (s : SinkState) : SinkState :=
  if s.paused || s.stopped then s else { s with pos := s.pos + delta }

/-- Result of the keyboard `match code` block (audio_player.rs:372-422):
the controller-local state it may mutate, the sink after the issued
commands, the `needs_render` flag, and whether the arm executed `break`. -/
structure KeyEffect where
  paused : Bool
  volume : ℚ
  preMuteVolume : ℚ
  sink : SinkState
  needsRender : Bool
  brk : Bool
deriving DecidableEq

/-- The keyboard `match code` block of `wait_with_progress`
(audio_player.rs:372-422), transcribed arm by arm. `position` is the local
`position` variable at the time the key is handled (the arms read it but
never assign it). -/
def handleKey (total position : Nat) (paused : Bool) (volume preMuteVolume : ℚ)
    (sink : SinkState) (seekOk : Bool) (code : KeyCode) : KeyEffect :=
  match code with
  | KeyCode.space =>
    if paused then
      { paused := false, volume := volume, preMuteVolume := preMuteVolume,
        sink := sinkPlay sink, needsRender := true, brk := false }
    else
      { paused := true, volume := volume, preMuteVolume := preMuteVolume,
        sink := sinkPause sink, needsRender := true, brk := false }
  | KeyCode.right | KeyCode.charL =>
    let target := min (position + SEEK_STEP) total
    { paused := paused, volume := volume, preMuteVolume := preMuteVolume,
      sink := sinkTrySeek seekOk target sink, needsRender := true, brk := false }
  | KeyCode.left | KeyCode.charH =>
    let target := position - SEEK_STEP
    { paused := paused, volume := volume, preMuteVolume := preMuteVolume,
      sink := sinkTrySeek seekOk target sink, needsRender := true, brk := false }
  | KeyCode.up | KeyCode.charK =>
    let v := volumeUp volume
    { paused := paused, volume := v,
      preMuteVolume := if 0 < v then v else preMuteVolume,
      sink := sinkSetVolume v sink, needsRender := true, brk := false }
  | KeyCode.down | KeyCode.charJ =>
    let v := volumeDown volume
    { paused := paused, volume := v,
      preMuteVolume := if 0 < v then v else preMuteVolume,
      sink := sinkSetVolume v sink, needsRender := true, brk := false }
  | KeyCode.charM =>
    if 0 < volume then
      { paused := paused, volume := 0, preMuteVolume := volume,
        sink := sinkSetVolume 0 sink, needsRender := true, brk := false }
    else
      let v := max preMuteVolume VOLUME_STEP
      { paused := paused, volume := v, preMuteVolume := preMuteVolume,
        sink := sinkSetVolume v sink, needsRender := true, brk := false }
  | KeyCode.charQ | KeyCode.esc =>
    { paused := paused, volume := volume, preMuteVolume := preMuteVolume,
      sink := sinkStop sink, needsRender := false, brk := true }
  | KeyCode.other =>
    { paused := paused, volume := volume, preMuteVolume := preMuteVolume,
      sink := sink, needsRender := false, brk := false }

/-- Controller-local mutable state of `wait_with_progress`
(audio_player.rs:321-326): `position`, `paused`, `volume`,
`pre_mute_volume`, `first_render`. -/
structure PlayState where
  position : Nat
  paused : Bool
  volume : ℚ
  preMuteVolume : ℚ
  firstRender : Bool
deriving DecidableEq

/-- Initial controller state (audio_player.rs:321-326): position zero, not
paused, volume and pre-mute volume both the initial volume, first render
pending. -/
def initState (initialVolume : ℚ) : PlayState :=
  { position := 0, paused := false, volume := initialVolume,
    preMuteVolume := initialVolume, firstRender := true }

/-- The arguments of one `render_progress` call issued from the loop
(audio_player.rs:429 and 436): elapsed, total, paused flag, volume, and the
`first_render` flag at call time. -/
structure RenderCall where
  elapsed : Nat
  total : Nat
  paused : Bool
  volume : ℚ
  firstRender : Bool
deriving DecidableEq

/-- The external events of one loop iteration, scripted: how far the sink
advanced since the previous tick, whether the sink now reports empty,
whether the engine signals cancellation this tick, the pressed key (if the
zero-timeout poll found one), whether the engine accepts a seek issued this
tick, and whether `RENDER_INTERVAL` has elapsed since the last render. -/
structure TickInput where
  advance : Nat
  becomesEmpty : Bool
  cancelled : Bool
  key : Option KeyCode
  seekOk : Bool
  renderDue : Bool
deriving DecidableEq

/-- How the `wait_with_progress` loop ended: the end-of-track `break`
(position reached total or the sink is empty, audio_player.rs:360-362), the
quit-key `break` (audio_player.rs:417-420), a cancellation error propagated
by `engine.signals().check(..)?` (audio_player.rs:364), or the scripted
input ran out while the real loop would have kept going (model artifact). -/
inductive LoopExit where
  | endOfTrack | quit | cancelled | ranOut
deriving DecidableEq

/-- Everything one run of the loop produces: final controller state, final
sink state, the exit reason, the `render_progress` calls made inside the
loop, and the value of `position` right after each tick's clamped read
(audio_player.rs:358). -/
structure LoopResult where
  state : PlayState
  sink : SinkState
  exit : LoopExit
  renders : List RenderCall
  posTrace : List Nat
deriving DecidableEq

/-- The `if interactive { if event::poll(..) { .. match code { .. } } }`
section of one tick (audio_player.rs:368-426): when the session is
interactive and a pressed key is available, the key match runs; otherwise
the tick leaves the state and sink untouched with no render requested. -/
def tickEffect (total : Nat) (interactive : Bool) (st : PlayState) (sink : SinkState)
    (t : TickInput) : KeyEffect :=
  match interactive, t.key with
  | true, some code =>
    handleKey total st.position st.paused st.volume st.preMuteVolume sink t.seekOk code
  | _, _ =>
    { paused := st.paused, volume := st.volume, preMuteVolume := st.preMuteVolume,
      sink := sink, needsRender := false, brk := false }

/-- The `loop { .. }` body of `wait_with_progress` (audio_player.rs:354-434),
one scripted tick per list element, in the code's order: advance the sink,
read `position = sink.get_pos().min(total)`, end-of-track check, signals
check, keyboard handling (interactive only), render when a key was handled
or the render interval elapsed, then the next tick. -/
def wait_loop (total : Nat) (interactive : Bool) :
    PlayState → SinkState → List TickInput → LoopResult
  | st, sink, [] => ⟨st, sink, LoopExit.ranOut, [], []⟩
  | st, sink, t :: rest =>
    let sink1 := sinkAdvance t.advance sink
    let sink1 := if t.becomesEmpty then { sink1 with empty := true } else sink1
    let position := min (sinkGetPos sink1) total
    let st1 := { st with position := position }
    if total ≤ position || sink1.empty then
      ⟨st1, sink1, LoopExit.endOfTrack, [], [position]⟩
    else if t.cancelled then
      ⟨st1, sink1, LoopExit.cancelled, [], [position]⟩
    else
      let eff := tickEffect total interactive st1 sink1 t
      let st2 :=
        { st1 with
          paused := eff.paused, volume := eff.volume, preMuteVolume := eff.preMuteVolume }
      if eff.brk then
        ⟨st2, eff.sink, LoopExit.quit, [], [position]⟩
      else
        let (tickRenders, st3) :=
          if eff.needsRender || t.renderDue then
            ([RenderCall.mk st2.position total st2.paused st2.volume st2.firstRender],
             { st2 with firstRender := false })
          else ([], st2)
        let r := wait_loop total interactive st3 eff.sink rest
        ⟨r.state, r.sink, r.exit, tickRenders ++ r.renders, position :: r.posTrace⟩

/-- One whole run of the `(|| { loop { .. } .. })()` closure of
`wait_with_progress` (audio_player.rs:353-438): the loop, then — only when
the loop ended by `break` — the single final
`render_progress(.., position.min(total), total, false, volume, ..)` call
(audio_player.rs:436); a cancellation error returned by `?` skips that call
and makes the closure's result an error. -/
structure SessionRun where
  state : PlayState
  sink : SinkState
  exit : LoopExit
  loopRenders : List RenderCall
  finalRenders : List RenderCall
  isError : Bool
deriving DecidableEq

/-- Runs the loop and applies the closure's tail (audio_player.rs:436-437). -/
def run_session (total : Nat) (interactive : Bool) (st : PlayState) (sink : SinkState)
    (script : List TickInput) : SessionRun :=
  let r := wait_loop total interactive st sink script
  match r.exit with
  | LoopExit.cancelled =>
    ⟨r.state, r.sink, r.exit, r.renders, [], true⟩
  | LoopExit.ranOut =>
    ⟨r.state, r.sink, r.exit, r.renders, [], false⟩
  | _ =>
    ⟨r.state, r.sink, r.exit, r.renders,
     [RenderCall.mk (min r.state.position total) total false r.state.volume r.state.firstRender],
     false⟩

/-- The terminal-affecting actions `wait_with_progress` performs, in order:
crossterm `Hide`/`Show` cursor, raw-mode enable/disable, and the cleanup
cursor moves / line clears. -/
inductive TermAction where
  | hideCursor | showCursor | enableRaw | disableRaw
  | moveToColumn | moveUp | clearLine
deriving DecidableEq

/-- The sequence of terminal actions `wait_with_progress` performs on each
control path, with the returned result's error flag
(audio_player.rs:328, 346-351, 440-450): `Hide`; if interactive, enable raw
mode — on failure `Show` and return the error at once; run the loop (its
result is an error exactly on cancellation); if interactive, disable raw
mode; then the header-dependent cleanup ending in `Show` plus line clears;
return the loop's result. -/
def terminal_trace (interactive rawModeFails hasHeader loopCancelled : Bool) :
    List TermAction × Bool :=
  let t := [TermAction.hideCursor]
  if interactive && rawModeFails then
    (t ++ [TermAction.showCursor], true)
  else
    let t := t ++ (if interactive then [TermAction.enableRaw] else [])
    let t := t ++ (if interactive then [TermAction.disableRaw] else [])
    let t := t ++
      (if hasHeader then
        [TermAction.moveToColumn, TermAction.clearLine,
         TermAction.showCursor, TermAction.moveUp, TermAction.moveToColumn,
         TermAction.clearLine]
      else
        [TermAction.showCursor, TermAction.moveToColumn, TermAction.clearLine])
    (t, loopCancelled)

/-- The icon sets of the progress display (audio_player.rs:43-50). -/
inductive IconSet where
  | NerdFont | Unicode | Ascii
deriving DecidableEq

/-- `f64::round` on the nonnegative values arising in `render_bar`
(half rounds away from zero, so upward). -/
def f64round (x : ℚ) : ℤ := ⌊x + 1 / 2⌋

/-- One display cell between the brackets of a rendered bar: a filled cell
(`icons.fill()`), an empty cell (`icons.empty()`), or the fractional
partial-fill glyph `partials[idx - 1]` of the Nerd Font set. -/
inductive BarCell where
  | fill | empty | frac (idx : Nat)
deriving DecidableEq

/-- `fn render_bar` (audio_player.rs:622-666) as the list of cells pushed
between the two brackets: clamp the ratio to `[0,1]`, `n_full` filled cells
(`floor` for Nerd Font, `round` otherwise, both capped at `width`), for
Nerd Font at most one partial-fill glyph when `1 ≤ part_idx ≤ 7`, then
empty cells up to `width`. -/
def render_bar (ratio : ℚ) (width : Nat) (icons : IconSet) : List BarCell :=
  let r := min (max ratio 0) 1
  let f_width : ℚ := r * (width : ℚ)
  let n_full : Nat :=
    if icons = IconSet.NerdFont then min (Int.toNat ⌊f_width⌋) width
    else min (Int.toNat (f64round f_width)) width
  let cells := List.replicate n_full BarCell.fill
  let step : List BarCell × Nat :=
    if n_full < width then
      if icons = IconSet.NerdFont then
        let remainder : ℚ := f_width - (n_full : ℚ)
        let part_idx : Nat := Int.toNat ⌊remainder * 8⌋
        if 0 < part_idx then
          if part_idx ≤ 7 then (cells ++ [BarCell.frac part_idx], n_full + 1)
          else (cells, n_full)
        else (cells, n_full)
      else (cells, n_full)
    else (cells, n_full)
  step.1 ++ List.replicate (width - step.2) BarCell.empty

/-- Number of columns a rendered bar devotes to fill (filled cells plus the
one-column fractional glyph), i.e. every cell that is not `empty`. -/
def fillLen (cells : List BarCell) : Nat :=
  List.countP (fun c => c ≠ BarCell.empty) cells

/-- The fixed `overhead` sum of `render_progress` (audio_player.rs:516-534):
the display widths of the prefix, the play/pause icon, the elapsed and total
strings, the two percent strings, the volume icon and the controls suffix,
plus the literal spacing/bracket/percent columns. -/
def render_overhead (prefixWidth iconWidth elapsedWidth totalWidth percentWidth
    volIconWidth volPctWidth controlsWidth : Nat) : Nat :=
  prefixWidth + iconWidth + 2 + elapsedWidth + 3 + totalWidth + 2 + 2 + 2 +
    percentWidth + 1 + 2 + volIconWidth + 1 + 2 + 1 + volPctWidth + 1 + controlsWidth

/-- `let available = (cols as usize).saturating_sub(overhead)`
(audio_player.rs:536). -/
def available_space (cols overhead : Nat) : Nat := cols - overhead

/-- Rust `x.clamp(lo, hi)` on usize. -/
def rustClamp (x lo hi : Nat) : Nat := min (max x lo) hi

/-- The dynamic bar-width computation of `render_progress`
(audio_player.rs:542-555), from the available space to
`(bar_width, vol_bar_width)`: `target = available * 3 / 4`; the raw bar is
`target` when `target ≥ 15`, else `available - 5`; clamp to `[10, 60]` and
cap at `available - 5`; the volume bar is `max(bar / 3, 5)`; a final guard
rewrites the bar to `max(available - vol, 10)` when the pair would exceed
the available space. -/
def compute_bar_widths (available : Nat) : Nat × Nat :=
  let min_vol := 5
  let max_bar := available - min_vol
  let target := available * 3 / 4
  let bar0 := if 15 ≤ target then target else available - min_vol
  let bar1 := min (rustClamp bar0 10 60) max_bar
  let vol := max (bar1 / 3) min_vol
  if available < bar1 + vol then (max (available - vol) 10, vol) else (bar1, vol)

/-! ## Theorems -/

/-- C1: duration resolution is a deterministic priority chain — an explicit
override wins, else the decoder-reported duration, else the container-header
duration, with a zero-valued header treated as absent, and a fixed fallback
of 3600 seconds when everything is absent; in particular
`resolve(None, None, Duration::ZERO) = 3600s`. -/
theorem duration_resolution_priority :
    FALLBACK_DURATION = 3600 * NANOS_PER_SEC ∧
    (∀ o d h : Nat, ∀ dOpt hOpt : Option Nat,
      resolve_total_duration (some o) dOpt hOpt = o ∧
      resolve_total_duration none (some d) hOpt = d ∧
      (h ≠ 0 → resolve_total_duration none none (some h) = h)) ∧
    resolve_total_duration none none (some 0) = FALLBACK_DURATION ∧
    resolve_total_duration none none none = FALLBACK_DURATION := by
  refine ⟨rfl, fun o d h dOpt hOpt => ⟨rfl, rfl, fun hne => ?_⟩, rfl, rfl⟩
  simp [resolve_total_duration, source_duration, hne]

/-- Witness for C1: with no override and no decoder duration, a nonzero
header duration of 42 ns is used verbatim. -/
theorem duration_resolution_priority_witness :
    resolve_total_duration none none (some 42) = 42 :=
  (duration_resolution_priority.2.1 0 0 42 none none).2.2 (by decide)

/-- C10: a negative value of the duration flag is treated exactly as an
absent flag — `load_duration_from` returns `None` for negative values and
for non-duration values, so resolution falls through to the detected
duration or the 1-hour fallback. -/
theorem negative_duration_flag_is_absent :
    ∀ v : Int, v < 0 →
      load_duration_from (some (FlagValue.duration v)) = none ∧
      load_duration_from (some FlagValue.other) = none ∧
      load_duration_from none = none ∧
      (∀ dOpt hOpt : Option Nat,
        resolve_total_duration (load_duration_from (some (FlagValue.duration v))) dOpt hOpt =
          resolve_total_duration none dOpt hOpt) := by
  intro v hv
  have hload : load_duration_from (some (FlagValue.duration v)) = none := by
    simp [load_duration_from, not_le.mpr hv]
  exact ⟨hload, rfl, rfl, fun dOpt hOpt => by rw [hload]⟩

/-- Witness for C10: a `-1 ns` duration flag resolves like an absent flag —
with no other source present the 1-hour fallback applies. -/
theorem negative_duration_flag_is_absent_witness :
    load_duration_from (some (FlagValue.duration (-1))) = none ∧
    resolve_total_duration (load_duration_from (some (FlagValue.duration (-1)))) none none =
      resolve_total_duration none none none :=
  ⟨(negative_duration_flag_is_absent (-1) (by decide)).1,
   (negative_duration_flag_is_absent (-1) (by decide)).2.2.2 none none⟩

/-- C3: terminal mode is always restored — on every exit path of
`wait_with_progress` the cursor is shown exactly once before the function
returns, raw mode is disabled whenever it was enabled, and a failure to
enable raw mode returns an error only after the cursor has been shown
again (with raw mode never having been enabled). -/
theorem terminal_mode_always_restored :
    ∀ interactive rawModeFails hasHeader loopCancelled : Bool,
      (terminal_trace interactive rawModeFails hasHeader loopCancelled).1.count
          TermAction.showCursor = 1 ∧
      (TermAction.enableRaw ∈ (terminal_trace interactive rawModeFails hasHeader loopCancelled).1 →
        TermAction.disableRaw ∈ (terminal_trace interactive rawModeFails hasHeader loopCancelled).1) ∧
      (interactive = true → rawModeFails = true →
        (terminal_trace interactive rawModeFails hasHeader loopCancelled).2 = true ∧
        (terminal_trace interactive rawModeFails hasHeader loopCancelled).1 =
          [TermAction.hideCursor, TermAction.showCursor] ∧
        TermAction.enableRaw ∉ (terminal_trace interactive rawModeFails hasHeader loopCancelled).1) := by
  decide

/-- Witness for C3: on the raw-mode-enable-failure path of an interactive
session the function returns an error, the trace is hide-then-show (the
cursor is shown before the error propagates), and raw mode was never
enabled. -/
theorem terminal_mode_always_restored_witness :
    (terminal_trace true true false false).2 = true ∧
    (terminal_trace true true false false).1 =
      [TermAction.hideCursor, TermAction.showCursor] ∧
    TermAction.enableRaw ∉ (terminal_trace true true false false).1 :=
  (terminal_mode_always_restored true true false false).2.2 rfl rfl

/-- C2: for every positive total and every scripted sequence of ticks —
including ticks whose sink position report exceeds the total — the elapsed
position read at every tick satisfies `0 ≤ elapsed ≤ total` (the position
read from the sink is clamped to the total before any use), and every
render performed by the loop observes `elapsed ≤ total`. -/
theorem elapsed_clamped_invariant :
    ∀ (total : Nat) (interactive : Bool) (script : List TickInput)
      (st : PlayState) (sink : SinkState),
      0 < total →
      (∀ p ∈ (wait_loop total interactive st sink script).posTrace, 0 ≤ p ∧ p ≤ total) ∧
      (∀ rc ∈ (wait_loop total interactive st sink script).renders, rc.elapsed ≤ total) := by
  intro total interactive script
  induction script with
  | nil =>
    intro st sink _
    simp [wait_loop]
  | cons t rest ih =>
    intro st sink htotal
    simp only [wait_loop]
    split
    case isTrue => simp [min_le_right]
    case isFalse =>
      split
      case isTrue => simp [min_le_right]
      case isFalse =>
        split
        case isTrue => simp [min_le_right]
        case isFalse =>
          generalize tickEffect total interactive _ _ t = eff
          split
          case isTrue => simp [min_le_right]
          case isFalse =>
            split
            case isTrue =>
              have hrec := ih (PlayState.mk (min (sinkGetPos (sinkAdvance t.advance sink)) total)
                eff.paused eff.volume eff.preMuteVolume false) (eff.sink) htotal
              refine ⟨?_, ?_⟩
              · intro p hp
                simp only [List.mem_cons] at hp
                rcases hp with h | h
                · exact ⟨Nat.zero_le _, h ▸ min_le_right _ _⟩
                · exact hrec.1 p h
              · intro rc hrc
                simp only [List.mem_append, List.mem_singleton] at hrc
                rcases hrc with h | h
                · rw [h]; exact min_le_right _ _
                · exact hrec.2 rc h
            case isFalse =>
              have hrec := ih (PlayState.mk (min (sinkGetPos (sinkAdvance t.advance sink)) total)
                eff.paused eff.volume eff.preMuteVolume st.firstRender) (eff.sink) htotal
              refine ⟨?_, ?_⟩
              · intro p hp
                simp only [List.mem_cons] at hp
                rcases hp with h | h
                · exact ⟨Nat.zero_le _, h ▸ min_le_right _ _⟩
                · exact hrec.1 p h
              · intro rc hrc
                simp only [List.nil_append] at hrc
                exact hrec.2 rc hrc

/-- Witness for C2: a 90-second track whose sink briefly reports a position
of 100 seconds — beyond the total — still keeps every observed elapsed
value within `[0, total]`. -/
theorem elapsed_clamped_invariant_witness :
    (∀ p ∈ (wait_loop (90 * NANOS_PER_SEC) true
        (initState 1)
        (SinkState.mk 0 false 1 false false)
        [TickInput.mk (100 * NANOS_PER_SEC) false false none false false]).posTrace,
      0 ≤ p ∧ p ≤ 90 * NANOS_PER_SEC) ∧
    (∀ rc ∈ (wait_loop (90 * NANOS_PER_SEC) true
        (initState 1)
        (SinkState.mk 0 false 1 false false)
        [TickInput.mk (100 * NANOS_PER_SEC) false false none false false]).renders,
      rc.elapsed ≤ 90 * NANOS_PER_SEC) :=
  elapsed_clamped_invariant (90 * NANOS_PER_SEC) true
    [TickInput.mk (100 * NANOS_PER_SEC) false false none false false]
    (initState 1) (SinkState.mk 0 false 1 false false) (by decide)

/-- Counterexample for C4: a session cancelled mid-loop (12s into a
90-second track) exits the loop with a cancellation error and performs NO
final render — `engine.signals().check(..)?` returns from the closure
before the post-loop `render_progress` call — contradicting the claim that
every loop exit (including a cancellation error) performs exactly one final
render. -/
theorem final_render_cancel_counterexample :
    (run_session (90 * NANOS_PER_SEC) true (initState 1)
        (SinkState.mk 0 false 1 false false)
        [TickInput.mk (12 * NANOS_PER_SEC) false true none false false]).exit =
      LoopExit.cancelled ∧
    (run_session (90 * NANOS_PER_SEC) true (initState 1)
        (SinkState.mk 0 false 1 false false)
        [TickInput.mk (12 * NANOS_PER_SEC) false true none false false]).finalRenders = [] ∧
    (run_session (90 * NANOS_PER_SEC) true (initState 1)
        (SinkState.mk 0 false 1 false false)
        [TickInput.mk (12 * NANOS_PER_SEC) false true none false false]).isError = true := by
  decide

/-- C4 (amended): when the loop exits by `break` — elapsed reaching total,
the sink reporting empty, or the user quitting — the controller performs
exactly one final render with the end-state values (clamped position,
paused shown as false, current volume) and returns success; when the loop
exits through a cancellation error, no final render is performed and the
error is returned. -/
theorem final_render_amended :
    ∀ (total : Nat) (interactive : Bool) (st : PlayState) (sink : SinkState)
      (script : List TickInput),
      ((run_session total interactive st sink script).exit = LoopExit.endOfTrack ∨
        (run_session total interactive st sink script).exit = LoopExit.quit →
        (run_session total interactive st sink script).finalRenders =
          [RenderCall.mk
            (min (run_session total interactive st sink script).state.position total) total false
            (run_session total interactive st sink script).state.volume
            (run_session total interactive st sink script).state.firstRender] ∧
        (run_session total interactive st sink script).isError = false) ∧
      ((run_session total interactive st sink script).exit = LoopExit.cancelled →
        (run_session total interactive st sink script).finalRenders = [] ∧
        (run_session total interactive st sink script).isError = true) := by
  intro total interactive st sink script
  cases h : (wait_loop total interactive st sink script).exit <;>
    simp [run_session, h]

/-- Witness for C4 (amended): the user presses q at elapsed 12s of a
90-second track — the session ends in the quit exit and performs exactly
the one final render with the end-state values. -/
theorem final_render_amended_witness :
    ((run_session (90 * NANOS_PER_SEC) true (initState 1)
        (SinkState.mk 0 false 1 false false)
        [TickInput.mk (12 * NANOS_PER_SEC) false false (some KeyCode.charQ) false false]).finalRenders =
      [RenderCall.mk
        (min (run_session (90 * NANOS_PER_SEC) true (initState 1)
          (SinkState.mk 0 false 1 false false)
          [TickInput.mk (12 * NANOS_PER_SEC) false false (some KeyCode.charQ) false false]).state.position
          (90 * NANOS_PER_SEC)) (90 * NANOS_PER_SEC) false
        (run_session (90 * NANOS_PER_SEC) true (initState 1)
          (SinkState.mk 0 false 1 false false)
          [TickInput.mk (12 * NANOS_PER_SEC) false false (some KeyCode.charQ) false false]).state.volume
        (run_session (90 * NANOS_PER_SEC) true (initState 1)
          (SinkState.mk 0 false 1 false false)
          [TickInput.mk (12 * NANOS_PER_SEC) false false (some KeyCode.charQ) false false]).state.firstRender]) ∧
    (run_session (90 * NANOS_PER_SEC) true (initState 1)
        (SinkState.mk 0 false 1 false false)
        [TickInput.mk (12 * NANOS_PER_SEC) false false (some KeyCode.charQ) false false]).isError = false :=
  (final_render_amended (90 * NANOS_PER_SEC) true (initState 1)
      (SinkState.mk 0 false 1 false false)
      [TickInput.mk (12 * NANOS_PER_SEC) false false (some KeyCode.charQ) false false]).1
    (Or.inr (by decide))

/-- Helper: advancing a sink by zero leaves it unchanged. -/
theorem sinkAdvance_zero : ∀ s : SinkState, sinkAdvance 0 s = s := by
  intro s
  simp only [sinkAdvance]
  split <;> simp

/-- Helper: the first position the loop records on a nonempty script is the
clamped read of the advanced sink position. -/
theorem wait_loop_posTrace_head :
    ∀ (total : Nat) (i : Bool) (st : PlayState) (sink : SinkState) (t : TickInput)
      (rest : List TickInput),
      (wait_loop total i st sink (t :: rest)).posTrace.take 1 =
        [min (sinkAdvance t.advance sink).pos total] := by
  intro total i st sink t rest
  simp only [wait_loop]
  repeat' split
  all_goals simp [sinkGetPos, List.take]

/-- Counterexample for C5: at elapsed 10s of a 90s track the user seeks
forward and the sink accepts the seek (sink position becomes 15s), yet the
session's elapsed is NOT set to the target within that tick — the state's
position stays 10s and the immediate re-render shows 10s, contradicting the
claim that on a successful sink seek elapsed is set to the target. -/
theorem seek_sets_elapsed_counterexample :
    (wait_loop (90 * NANOS_PER_SEC) true (initState 1)
        (SinkState.mk 0 false 1 false false)
        [TickInput.mk (10 * NANOS_PER_SEC) false false (some KeyCode.right) true false]).sink.pos =
      15 * NANOS_PER_SEC ∧
    (wait_loop (90 * NANOS_PER_SEC) true (initState 1)
        (SinkState.mk 0 false 1 false false)
        [TickInput.mk (10 * NANOS_PER_SEC) false false (some KeyCode.right) true false]).state.position =
      10 * NANOS_PER_SEC ∧
    ((wait_loop (90 * NANOS_PER_SEC) true (initState 1)
        (SinkState.mk 0 false 1 false false)
        [TickInput.mk (10 * NANOS_PER_SEC) false false (some KeyCode.right) true false]).renders.map
      RenderCall.elapsed) = [10 * NANOS_PER_SEC] ∧
    ¬ (wait_loop (90 * NANOS_PER_SEC) true (initState 1)
        (SinkState.mk 0 false 1 false false)
        [TickInput.mk (10 * NANOS_PER_SEC) false false (some KeyCode.right) true false]).state.position =
      15 * NANOS_PER_SEC := by
  decide

/-- C5 (amended): a right-arrow/l key computes the seek target
`min(elapsed + 5s, total)` and a left-arrow/h key computes
`elapsed - 5s` saturating at 0, and issues `sink.try_seek(target)` without
modifying elapsed in that tick; a failed seek leaves the sink entirely
unchanged (the seek is ignored and the loop continues); a successful seek
moves the sink to the target, so elapsed equals the target from the next
tick's clamped position read. -/
theorem seek_amended :
    (∀ (total position : Nat) (paused : Bool) (volume preMute : ℚ) (sink : SinkState)
        (seekOk : Bool) (code : KeyCode),
      code = KeyCode.right ∨ code = KeyCode.charL →
      handleKey total position paused volume preMute sink seekOk code =
        KeyEffect.mk paused volume preMute
          (sinkTrySeek seekOk (min (position + SEEK_STEP) total) sink) true false) ∧
    (∀ (total position : Nat) (paused : Bool) (volume preMute : ℚ) (sink : SinkState)
        (seekOk : Bool) (code : KeyCode),
      code = KeyCode.left ∨ code = KeyCode.charH →
      handleKey total position paused volume preMute sink seekOk code =
        KeyEffect.mk paused volume preMute
          (sinkTrySeek seekOk (position - SEEK_STEP) sink) true false) ∧
    (∀ (target : Nat) (sink : SinkState), sinkTrySeek false target sink = sink) ∧
    (∀ (target : Nat) (sink : SinkState), (sinkTrySeek true target sink).pos = target) ∧
    (∀ (total : Nat) (st : PlayState) (sink : SinkState) (t1 t2 : TickInput)
        (rest : List TickInput),
      (t1.key = some KeyCode.right ∨ t1.key = some KeyCode.charL) →
      t1.seekOk = true → t1.cancelled = false → t1.becomesEmpty = false →
      (sinkAdvance t1.advance sink).empty = false →
      min (sinkAdvance t1.advance sink).pos total < total →
      t2.advance = 0 →
      (wait_loop total true st sink (t1 :: t2 :: rest)).posTrace.take 2 =
        [min (sinkAdvance t1.advance sink).pos total,
         min (min (sinkAdvance t1.advance sink).pos total + SEEK_STEP) total]) := by
  refine ⟨?_, ?_, ?_, ?_, ?_⟩
  · intro total position paused volume preMute sink seekOk code hcode
    rcases hcode with h | h <;> subst h <;> rfl
  · intro total position paused volume preMute sink seekOk code hcode
    rcases hcode with h | h <;> subst h <;> rfl
  · intro target sink; rfl
  · intro target sink; rfl
  · intro total st sink t1 t2 rest hkey hseek hc he hempty hp ht2
    have hnle : ¬ total ≤ min (sinkAdvance t1.advance sink).pos total := not_le.mpr hp
    rw [wait_loop]
    simp only [he, Bool.false_eq_true, if_false, sinkGetPos]
    rw [if_neg (by simp [hempty, hnle])]
    rw [if_neg (by simp [hc])]
    rcases hkey with h | h <;>
    · simp only [tickEffect, h, handleKey, sinkTrySeek, hseek, if_true]
      simp only [Bool.true_or, if_true, List.take, List.cons.injEq, true_and]
      rw [wait_loop_posTrace_head]
      simp [ht2, sinkAdvance_zero, min_assoc]

/-- Witness for C5 (amended): a successful forward seek at elapsed 10s of a
90s track makes the next tick's position read exactly 15s. -/
theorem seek_amended_witness :
    (wait_loop (90 * NANOS_PER_SEC) true (initState 1)
        (SinkState.mk 0 false 1 false false)
        [TickInput.mk (10 * NANOS_PER_SEC) false false (some KeyCode.right) true false,
         TickInput.mk 0 false false none false false]).posTrace.take 2 =
      [min (sinkAdvance (10 * NANOS_PER_SEC) (SinkState.mk 0 false 1 false false)).pos
          (90 * NANOS_PER_SEC),
       min (min (sinkAdvance (10 * NANOS_PER_SEC) (SinkState.mk 0 false 1 false false)).pos
            (90 * NANOS_PER_SEC) + SEEK_STEP)
          (90 * NANOS_PER_SEC)] :=
  seek_amended.2.2.2.2 (90 * NANOS_PER_SEC) (initState 1)
    (SinkState.mk 0 false 1 false false)
    (TickInput.mk (10 * NANOS_PER_SEC) false false (some KeyCode.right) true false)
    (TickInput.mk 0 false false none false false) []
    (Or.inl rfl) rfl rfl rfl (by decide) (by decide) rfl

/-- Helper: one volume-up step keeps a nonnegative volume in `[0, VOLUME_MAX]`. -/
theorem volumeUp_bounds : ∀ v : ℚ, 0 ≤ v → 0 ≤ volumeUp v ∧ volumeUp v ≤ VOLUME_MAX := by
  intro v hv
  constructor
  · exact le_min (by norm_num [VOLUME_STEP]; linarith) (by norm_num [VOLUME_MAX])
  · exact min_le_right _ _

/-- Helper: one volume-down step keeps a volume at most `VOLUME_MAX` in
`[0, VOLUME_MAX]`. -/
theorem volumeDown_bounds :
    ∀ v : ℚ, v ≤ VOLUME_MAX → 0 ≤ volumeDown v ∧ volumeDown v ≤ VOLUME_MAX := by
  intro v hv
  constructor
  · exact le_max_right _ _
  · exact max_le (by norm_num [VOLUME_STEP] at *; linarith) (by norm_num [VOLUME_MAX])

/-- Helper: every key-handler arm keeps volume and pre-mute volume in
`[0, VOLUME_MAX]`. -/
theorem handleKey_volume_bounds :
    ∀ (total position : Nat) (paused : Bool) (volume preMute : ℚ) (sink : SinkState)
      (seekOk : Bool) (code : KeyCode),
      0 ≤ volume → volume ≤ VOLUME_MAX → 0 ≤ preMute → preMute ≤ VOLUME_MAX →
      (0 ≤ (handleKey total position paused volume preMute sink seekOk code).volume ∧
       (handleKey total position paused volume preMute sink seekOk code).volume ≤ VOLUME_MAX ∧
       0 ≤ (handleKey total position paused volume preMute sink seekOk code).preMuteVolume ∧
       (handleKey total position paused volume preMute sink seekOk code).preMuteVolume ≤ VOLUME_MAX) := by
  intro total position paused volume preMute sink seekOk code hv0 hv2 hp0 hp2
  have hu := volumeUp_bounds volume hv0
  have hd := volumeDown_bounds volume hv2
  have hstep0 : (0:ℚ) ≤ VOLUME_STEP := by norm_num [VOLUME_STEP]
  have hstep2 : VOLUME_STEP ≤ VOLUME_MAX := by norm_num [VOLUME_STEP, VOLUME_MAX]
  cases code with
  | space =>
    simp only [handleKey]
    split_ifs <;> exact ⟨hv0, hv2, hp0, hp2⟩
  | right => exact ⟨hv0, hv2, hp0, hp2⟩
  | charL => exact ⟨hv0, hv2, hp0, hp2⟩
  | left => exact ⟨hv0, hv2, hp0, hp2⟩
  | charH => exact ⟨hv0, hv2, hp0, hp2⟩
  | up =>
    simp only [handleKey]
    split_ifs <;> first | exact ⟨hu.1, hu.2, hu.1, hu.2⟩ | exact ⟨hu.1, hu.2, hp0, hp2⟩
  | charK =>
    simp only [handleKey]
    split_ifs <;> first | exact ⟨hu.1, hu.2, hu.1, hu.2⟩ | exact ⟨hu.1, hu.2, hp0, hp2⟩
  | down =>
    simp only [handleKey]
    split_ifs <;> first | exact ⟨hd.1, hd.2, hd.1, hd.2⟩ | exact ⟨hd.1, hd.2, hp0, hp2⟩
  | charJ =>
    simp only [handleKey]
    split_ifs <;> first | exact ⟨hd.1, hd.2, hd.1, hd.2⟩ | exact ⟨hd.1, hd.2, hp0, hp2⟩
  | charM =>
    simp only [handleKey]
    split_ifs with h
    · exact ⟨le_refl 0, by norm_num [VOLUME_MAX], hv0, hv2⟩
    · exact ⟨le_trans hp0 (le_max_left _ _), max_le hp2 hstep2, hp0, hp2⟩
  | charQ => exact ⟨hv0, hv2, hp0, hp2⟩
  | esc => exact ⟨hv0, hv2, hp0, hp2⟩
  | other => exact ⟨hv0, hv2, hp0, hp2⟩

/-- Helper: one tick's key handling keeps volume and pre-mute volume in
`[0, VOLUME_MAX]`. -/
theorem tickEffect_volume_bounds :
    ∀ (total : Nat) (interactive : Bool) (st : PlayState) (sink : SinkState) (t : TickInput),
      0 ≤ st.volume → st.volume ≤ VOLUME_MAX →
      0 ≤ st.preMuteVolume → st.preMuteVolume ≤ VOLUME_MAX →
      (0 ≤ (tickEffect total interactive st sink t).volume ∧
       (tickEffect total interactive st sink t).volume ≤ VOLUME_MAX ∧
       0 ≤ (tickEffect total interactive st sink t).preMuteVolume ∧
       (tickEffect total interactive st sink t).preMuteVolume ≤ VOLUME_MAX) := by
  intro total interactive st sink t hv0 hv2 hp0 hp2
  cases interactive with
  | false =>
    cases ht : t.key <;> simp only [tickEffect, ht] <;> exact ⟨hv0, hv2, hp0, hp2⟩
  | true =>
    cases ht : t.key with
    | none => simp only [tickEffect, ht]; exact ⟨hv0, hv2, hp0, hp2⟩
    | some code =>
      simp only [tickEffect, ht]
      exact handleKey_volume_bounds total st.position st.paused st.volume st.preMuteVolume
        sink t.seekOk code hv0 hv2 hp0 hp2

/-- Helper: the loop keeps volume and pre-mute volume in `[0, VOLUME_MAX]` in
its state and in every render it performs. -/
theorem wait_loop_volume_invariant :
    ∀ (total : Nat) (interactive : Bool) (script : List TickInput)
      (st : PlayState) (sink : SinkState),
      0 ≤ st.volume → st.volume ≤ VOLUME_MAX →
      0 ≤ st.preMuteVolume → st.preMuteVolume ≤ VOLUME_MAX →
      (∀ rc ∈ (wait_loop total interactive st sink script).renders,
        0 ≤ rc.volume ∧ rc.volume ≤ VOLUME_MAX) ∧
      0 ≤ (wait_loop total interactive st sink script).state.volume ∧
      (wait_loop total interactive st sink script).state.volume ≤ VOLUME_MAX ∧
      0 ≤ (wait_loop total interactive st sink script).state.preMuteVolume ∧
      (wait_loop total interactive st sink script).state.preMuteVolume ≤ VOLUME_MAX := by
  intro total interactive script
  induction script with
  | nil =>
    intro st sink hv0 hv2 hp0 hp2
    simp [wait_loop, hv0, hv2, hp0, hp2]
  | cons t rest ih =>
    intro st sink hv0 hv2 hp0 hp2
    simp only [wait_loop]
    split
    case isTrue => simp_all
    case isFalse =>
      split
      case isTrue => simp_all
      case isFalse =>
        split
        case isTrue => simp_all
        case isFalse =>
          have hEff := tickEffect_volume_bounds total interactive
            (PlayState.mk (min (sinkGetPos (sinkAdvance t.advance sink)) total)
              st.paused st.volume st.preMuteVolume st.firstRender)
            (sinkAdvance t.advance sink) t hv0 hv2 hp0 hp2
          generalize heq : tickEffect total interactive
            (PlayState.mk (min (sinkGetPos (sinkAdvance t.advance sink)) total)
              st.paused st.volume st.preMuteVolume st.firstRender)
            (sinkAdvance t.advance sink) t = eff at hEff ⊢
          obtain ⟨he0, he2, hq0, hq2⟩ := hEff
          split
          case isTrue => exact ⟨by simp, he0, he2, hq0, hq2⟩
          case isFalse =>
            split
            case isTrue =>
              have hrec := ih (PlayState.mk (min (sinkGetPos (sinkAdvance t.advance sink)) total)
                eff.paused eff.volume eff.preMuteVolume false) (eff.sink) he0 he2 hq0 hq2
              refine ⟨?_, hrec.2⟩
              intro rc hrc
              simp only [List.mem_append, List.mem_singleton] at hrc
              rcases hrc with h | h
              · rw [h]; exact ⟨he0, he2⟩
              · exact hrec.1 rc h
            case isFalse =>
              have hrec := ih (PlayState.mk (min (sinkGetPos (sinkAdvance t.advance sink)) total)
                eff.paused eff.volume eff.preMuteVolume st.firstRender) (eff.sink) he0 he2 hq0 hq2
              refine ⟨?_, hrec.2⟩
              intro rc hrc
              simp only [List.nil_append] at hrc
              exact hrec.1 rc hrc

/-- Helper: closed form of repeated volume-up presses starting from 1.0 —
after `n` presses the volume is `min (1 + n * VOLUME_STEP) VOLUME_MAX`. -/
theorem volumeUp_iterate_one :
    ∀ n : Nat, volumeUp^[n] 1 = min (1 + n * VOLUME_STEP) VOLUME_MAX := by
  intro n
  induction n with
  | zero => norm_num [VOLUME_STEP, VOLUME_MAX]
  | succ n ih =>
    rw [Function.iterate_succ_apply', ih]
    rcases le_total (1 + (n:ℚ) * VOLUME_STEP) VOLUME_MAX with h | h
    · rw [min_eq_left h, volumeUp]
      push_cast
      congr 1
      ring
    · rw [min_eq_right h, volumeUp]
      rw [min_eq_right (by norm_num [VOLUME_STEP])]
      have h2 : VOLUME_MAX ≤ 1 + ((n:Nat) + 1 : Nat) * VOLUME_STEP := by
        push_cast
        have hs : (0:ℚ) ≤ VOLUME_STEP := by norm_num [VOLUME_STEP]
        nlinarith [h, hs]
      rw [min_eq_right h2]

/-- C6: volume stays in `[0, 2.0]` at every observation point (every render
performed by the session and the session's final state) under every
scripted key sequence, starting from any in-range state — and the initial
volume computed from the amplify flag is always in range; twenty or more
volume-up presses from 1.0 give exactly 2.0 and a further press stays at
2.0, and volume-down presses are floored at 0. -/
theorem volume_clamped_invariant :
    (∀ amp : Option ℚ, 0 ≤ initial_volume amp ∧ initial_volume amp ≤ VOLUME_MAX) ∧
    (∀ (total : Nat) (interactive : Bool) (st : PlayState) (sink : SinkState)
        (script : List TickInput),
      0 ≤ st.volume → st.volume ≤ VOLUME_MAX →
      0 ≤ st.preMuteVolume → st.preMuteVolume ≤ VOLUME_MAX →
      (∀ rc ∈ (run_session total interactive st sink script).loopRenders ++
          (run_session total interactive st sink script).finalRenders,
        0 ≤ rc.volume ∧ rc.volume ≤ VOLUME_MAX) ∧
      0 ≤ (run_session total interactive st sink script).state.volume ∧
      (run_session total interactive st sink script).state.volume ≤ VOLUME_MAX) ∧
    (∀ n : Nat, 20 ≤ n → volumeUp^[n] 1 = 2) ∧
    volumeUp 2 = 2 ∧
    (∀ (v : ℚ) (n : Nat), 0 ≤ v → 0 ≤ volumeDown^[n] v) ∧
    volumeDown 0 = 0 := by
  refine ⟨?_, ?_, ?_, ?_, ?_, ?_⟩
  · intro amp
    cases amp with
    | none => norm_num [initial_volume, VOLUME_MAX]
    | some v =>
      exact ⟨le_min (by norm_num [VOLUME_MAX]) (le_max_left _ _), min_le_left _ _⟩
  · intro total interactive st sink script hv0 hv2 hp0 hp2
    have hinv := wait_loop_volume_invariant total interactive script st sink hv0 hv2 hp0 hp2
    cases h : (wait_loop total interactive st sink script).exit <;>
      simp only [run_session, h] <;>
      refine ⟨?_, hinv.2.1, hinv.2.2.1⟩ <;>
      intro rc hrc <;>
      simp only [List.mem_append, List.mem_singleton, List.append_nil] at hrc
    case endOfTrack =>
      rcases hrc with h1 | h1
      · exact hinv.1 rc h1
      · rw [h1]; exact ⟨hinv.2.1, hinv.2.2.1⟩
    case quit =>
      rcases hrc with h1 | h1
      · exact hinv.1 rc h1
      · rw [h1]; exact ⟨hinv.2.1, hinv.2.2.1⟩
    case cancelled => exact hinv.1 rc hrc
    case ranOut => exact hinv.1 rc hrc
  · intro n hn
    rw [volumeUp_iterate_one]
    have h20 : (20:ℚ) ≤ (n:ℚ) := by exact_mod_cast hn
    have : VOLUME_MAX ≤ 1 + (n:ℚ) * VOLUME_STEP := by
      norm_num [VOLUME_STEP, VOLUME_MAX]
      linarith
    rw [min_eq_right this]
    norm_num [VOLUME_MAX]
  · norm_num [volumeUp, VOLUME_STEP, VOLUME_MAX]
  · intro v n hv
    cases n with
    | zero => exact hv
    | succ n =>
      rw [Function.iterate_succ_apply']
      exact le_max_right _ _
  · norm_num [volumeDown, VOLUME_STEP]

/-- Witness for C6: a session on a 90-second track starting at volume 1.0
with a volume-up press keeps every observed volume in range, and exactly
twenty up presses from 1.0 give exactly 2.0. -/
theorem volume_clamped_invariant_witness :
    ((∀ rc ∈ (run_session (90 * NANOS_PER_SEC) true (initState 1)
          (SinkState.mk 0 false 1 false false)
          [TickInput.mk (10 * NANOS_PER_SEC) false false (some KeyCode.up) false false]).loopRenders ++
        (run_session (90 * NANOS_PER_SEC) true (initState 1)
          (SinkState.mk 0 false 1 false false)
          [TickInput.mk (10 * NANOS_PER_SEC) false false (some KeyCode.up) false false]).finalRenders,
      0 ≤ rc.volume ∧ rc.volume ≤ VOLUME_MAX) ∧
     0 ≤ (run_session (90 * NANOS_PER_SEC) true (initState 1)
          (SinkState.mk 0 false 1 false false)
          [TickInput.mk (10 * NANOS_PER_SEC) false false (some KeyCode.up) false false]).state.volume ∧
     (run_session (90 * NANOS_PER_SEC) true (initState 1)
          (SinkState.mk 0 false 1 false false)
          [TickInput.mk (10 * NANOS_PER_SEC) false false (some KeyCode.up) false false]).state.volume ≤
       VOLUME_MAX) ∧
    volumeUp^[20] 1 = 2 :=
  ⟨volume_clamped_invariant.2.1 (90 * NANOS_PER_SEC) true (initState 1)
      (SinkState.mk 0 false 1 false false)
      [TickInput.mk (10 * NANOS_PER_SEC) false false (some KeyCode.up) false false]
      (by norm_num [initState]) (by norm_num [initState, VOLUME_MAX])
      (by norm_num [initState]) (by norm_num [initState, VOLUME_MAX]),
   volume_clamped_invariant.2.2.1 20 (le_refl 20)⟩

/-- C7: mute/unmute is an idempotent inverse pair — pressing m with volume
`v > 0` records `v` as the pre-mute volume and sets the volume (and the
sink volume) to 0; pressing m again with no intervening volume action
restores `max v VOLUME_STEP`, which is exactly `v` whenever `v` is at least
one volume step (0.05). -/
theorem mute_unmute_inverse :
    ∀ (total position : Nat) (paused : Bool) (v preMute : ℚ) (sink : SinkState) (seekOk : Bool),
      0 < v →
      (handleKey total position paused v preMute sink seekOk KeyCode.charM).volume = 0 ∧
      (handleKey total position paused v preMute sink seekOk KeyCode.charM).preMuteVolume = v ∧
      (handleKey total position paused v preMute sink seekOk KeyCode.charM).sink.volume = 0 ∧
      (handleKey total position
        (handleKey total position paused v preMute sink seekOk KeyCode.charM).paused
        (handleKey total position paused v preMute sink seekOk KeyCode.charM).volume
        (handleKey total position paused v preMute sink seekOk KeyCode.charM).preMuteVolume
        (handleKey total position paused v preMute sink seekOk KeyCode.charM).sink seekOk
        KeyCode.charM).volume = max v VOLUME_STEP ∧
      (VOLUME_STEP ≤ v →
        (handleKey total position
          (handleKey total position paused v preMute sink seekOk KeyCode.charM).paused
          (handleKey total position paused v preMute sink seekOk KeyCode.charM).volume
          (handleKey total position paused v preMute sink seekOk KeyCode.charM).preMuteVolume
          (handleKey total position paused v preMute sink seekOk KeyCode.charM).sink seekOk
          KeyCode.charM).volume = v) := by
  intro total position paused v preMute sink seekOk hv
  have h1 : handleKey total position paused v preMute sink seekOk KeyCode.charM =
      KeyEffect.mk paused 0 v (sinkSetVolume 0 sink) true false := by
    simp [handleKey, hv]
  rw [h1]
  have h2 : handleKey total position paused 0 v (sinkSetVolume 0 sink) seekOk KeyCode.charM =
      KeyEffect.mk paused (max v VOLUME_STEP) v
        (sinkSetVolume (max v VOLUME_STEP) (sinkSetVolume 0 sink)) true false := by
    simp [handleKey]
  rw [h2]
  exact ⟨rfl, rfl, rfl, rfl, fun hstep => max_eq_left hstep⟩

/-- Witness for C7: muting at volume 1.0 zeroes the volume and remembers
1.0; unmuting restores exactly 1.0. -/
theorem mute_unmute_inverse_witness :
    (handleKey (90 * NANOS_PER_SEC) 0 false 1 1
        (SinkState.mk 0 false 1 false false) false KeyCode.charM).volume = 0 ∧
    (handleKey (90 * NANOS_PER_SEC) 0 false 1 1
        (SinkState.mk 0 false 1 false false) false KeyCode.charM).preMuteVolume = 1 ∧
    (handleKey (90 * NANOS_PER_SEC) 0 false 1 1
        (SinkState.mk 0 false 1 false false) false KeyCode.charM).sink.volume = 0 ∧
    (handleKey (90 * NANOS_PER_SEC) 0
      (handleKey (90 * NANOS_PER_SEC) 0 false 1 1
        (SinkState.mk 0 false 1 false false) false KeyCode.charM).paused
      (handleKey (90 * NANOS_PER_SEC) 0 false 1 1
        (SinkState.mk 0 false 1 false false) false KeyCode.charM).volume
      (handleKey (90 * NANOS_PER_SEC) 0 false 1 1
        (SinkState.mk 0 false 1 false false) false KeyCode.charM).preMuteVolume
      (handleKey (90 * NANOS_PER_SEC) 0 false 1 1
        (SinkState.mk 0 false 1 false false) false KeyCode.charM).sink false
      KeyCode.charM).volume = max 1 VOLUME_STEP ∧
    (handleKey (90 * NANOS_PER_SEC) 0
      (handleKey (90 * NANOS_PER_SEC) 0 false 1 1
        (SinkState.mk 0 false 1 false false) false KeyCode.charM).paused
      (handleKey (90 * NANOS_PER_SEC) 0 false 1 1
        (SinkState.mk 0 false 1 false false) false KeyCode.charM).volume
      (handleKey (90 * NANOS_PER_SEC) 0 false 1 1
        (SinkState.mk 0 false 1 false false) false KeyCode.charM).preMuteVolume
      (handleKey (90 * NANOS_PER_SEC) 0 false 1 1
        (SinkState.mk 0 false 1 false false) false KeyCode.charM).sink false
      KeyCode.charM).volume = 1 := by
  have h := mute_unmute_inverse (90 * NANOS_PER_SEC) 0 false 1 1
    (SinkState.mk 0 false 1 false false) false (by norm_num)
  exact ⟨h.1, h.2.1, h.2.2.1, h.2.2.2.1, h.2.2.2.2 (by norm_num [VOLUME_STEP])⟩

/-- Counterexample for C9: a 40-column terminal (exactly the rendering
minimum) showing the non-interactive Ascii frame `> 0:00 / 1:00 [..] 0%
[V] [..] 100%` — component display widths: prefix 0, icon 1, elapsed 4,
total 4, percent 1, volume icon 3, volume percent 3, controls suffix 0 —
leaves 5 columns of available space, and the layout computation then
produces a main bar of width 0, violating the claimed clamp of the main
bar to [10, 60]. -/
theorem bar_layout_counterexample :
    40 ≥ 40 ∧
    available_space 40 (render_overhead 0 1 4 4 1 3 3 0) = 5 ∧
    compute_bar_widths (available_space 40 (render_overhead 0 1 4 4 1 3 3 0)) = (0, 5) ∧
    ¬ 10 ≤ (compute_bar_widths (available_space 40 (render_overhead 0 1 4 4 1 3 3 0))).1 := by
  decide

/-- C9 (amended): whenever the available space (terminal columns minus the
fixed overhead of glyphs, labels and the control-hint suffix) is at least
15 columns, the layout computation produces a main bar width in [10, 60],
a volume bar width of `max(5, main / 3)`, and the two bars' combined width
never exceeds the available space; below 15 columns of available space the
computation can produce a main bar narrower than 10 cells (or a combined
width exceeding the available space). -/
theorem bar_layout_amended :
    ∀ (cols overhead : Nat),
      15 ≤ available_space cols overhead →
      10 ≤ (compute_bar_widths (available_space cols overhead)).1 ∧
      (compute_bar_widths (available_space cols overhead)).1 ≤ 60 ∧
      (compute_bar_widths (available_space cols overhead)).2 =
        max ((compute_bar_widths (available_space cols overhead)).1 / 3) 5 ∧
      (compute_bar_widths (available_space cols overhead)).1 +
        (compute_bar_widths (available_space cols overhead)).2 ≤
        available_space cols overhead := by
  intro cols overhead
  generalize available_space cols overhead = a
  intro h15
  simp only [compute_bar_widths, rustClamp]
  split_ifs <;> refine ⟨?_, ?_, ?_, ?_⟩ <;> omega

/-- Witness for C9 (amended): a 120-column terminal with the same frame
overhead of 35 leaves 85 columns available, and the computed layout
satisfies all the amended bounds. -/
theorem bar_layout_amended_witness :
    10 ≤ (compute_bar_widths (available_space 120 (render_overhead 0 1 4 4 1 3 3 0))).1 ∧
    (compute_bar_widths (available_space 120 (render_overhead 0 1 4 4 1 3 3 0))).1 ≤ 60 ∧
    (compute_bar_widths (available_space 120 (render_overhead 0 1 4 4 1 3 3 0))).2 =
      max ((compute_bar_widths (available_space 120 (render_overhead 0 1 4 4 1 3 3 0))).1 / 3) 5 ∧
    (compute_bar_widths (available_space 120 (render_overhead 0 1 4 4 1 3 3 0))).1 +
      (compute_bar_widths (available_space 120 (render_overhead 0 1 4 4 1 3 3 0))).2 ≤
      available_space 120 (render_overhead 0 1 4 4 1 3 3 0) :=
  bar_layout_amended 120 (render_overhead 0 1 4 4 1 3 3 0) (by decide)

/-- Helper: counting with a predicate over a replicated cell. -/
theorem countP_replicate (p : BarCell → Bool) (n : Nat) (a : BarCell) :
    (List.replicate n a).countP p = if p a then n else 0 := by
  induction n with
  | zero => simp
  | succ n ih =>
    simp only [List.replicate, List.countP_cons, ih]
    split_ifs <;> simp_all

/-- Helper: for a non-rich icon set the rendered bar is
`round(ratio*width)` filled cells followed by empty cells. -/
theorem render_bar_eq_nonrich :
    ∀ (ratio : ℚ) (width : Nat) (icons : IconSet),
      0 ≤ ratio → ratio ≤ 1 → ¬ icons = IconSet.NerdFont →
      render_bar ratio width icons =
        List.replicate ((f64round (ratio * width)).toNat) BarCell.fill ++
          List.replicate (width - (f64round (ratio * width)).toNat) BarCell.empty := by
  intro ratio width icons h0 h1 hic
  have hclamp : min (max ratio 0) 1 = ratio := by rw [max_eq_left h0, min_eq_left h1]
  have hfw1 : ratio * (width:ℚ) ≤ (width:ℚ) :=
    mul_le_of_le_one_left (by positivity) h1
  have hround_le : f64round (ratio * width) ≤ (width:ℤ) := by
    have hmono : (⌊ratio * (width:ℚ) + 1/2⌋ : ℤ) ≤ ⌊((width:ℤ):ℚ) + 1/2⌋ := by
      apply Int.floor_le_floor
      push_cast
      linarith
    rw [Int.floor_int_add] at hmono
    norm_num at hmono
    simpa [f64round] using hmono
  have hmin : min ((f64round (ratio * width)).toNat) width = (f64round (ratio * width)).toNat :=
    min_eq_left (Int.toNat_le.mpr hround_le)
  simp only [render_bar, hclamp, if_neg hic, ite_self, hmin]

/-- Helper: for the rich icon set the rendered bar is `floor(ratio*width)`
filled cells, optionally one fractional partial cell, then empty cells. -/
theorem render_bar_eq_rich :
    ∀ (ratio : ℚ) (width : Nat),
      0 ≤ ratio → ratio ≤ 1 →
      (render_bar ratio width IconSet.NerdFont =
        List.replicate ((⌊ratio * width⌋).toNat) BarCell.fill ++
          List.replicate (width - (⌊ratio * width⌋).toNat) BarCell.empty) ∨
      (∃ idx : Nat,
        (⌊ratio * width⌋).toNat < width ∧
        render_bar ratio width IconSet.NerdFont =
          List.replicate ((⌊ratio * width⌋).toNat) BarCell.fill ++
            [BarCell.frac idx] ++
            List.replicate (width - ((⌊ratio * width⌋).toNat + 1)) BarCell.empty) := by
  intro ratio width h0 h1
  have hclamp : min (max ratio 0) 1 = ratio := by rw [max_eq_left h0, min_eq_left h1]
  have hfw1 : ratio * (width:ℚ) ≤ (width:ℚ) :=
    mul_le_of_le_one_left (by positivity) h1
  have hfloor_le : ⌊ratio * (width:ℚ)⌋ ≤ (width:ℤ) := by
    have := Int.floor_le_floor hfw1
    simpa using this
  have hmin : min ((⌊ratio * (width:ℚ)⌋).toNat) width = (⌊ratio * (width:ℚ)⌋).toNat :=
    min_eq_left (Int.toNat_le.mpr hfloor_le)
  simp only [render_bar, hclamp, reduceIte, hmin]
  split_ifs with hlt hp0 hp7
  · right
    exact ⟨(⌊(ratio * (width:ℚ) - ((⌊ratio * (width:ℚ)⌋.toNat : Nat) : ℚ)) * 8⌋).toNat, hlt,
      by simp [List.append_assoc]⟩
  · left; rfl
  · left; rfl
  · left; rfl

/-- C8: for every ratio in [0, 1] and every width of at least 10, the
rendered bar holds exactly `width` cells between its brackets and the fill
length (a fractional partial cell counted as one column) never exceeds
`width`; a non-rich icon set fills `round(ratio*width)` cells and no
partial cells, and the rich set fills `floor(ratio*width)` cells plus at
most one fractional partial cell. -/
theorem render_bar_width_bounds :
    ∀ (ratio : ℚ) (width : Nat) (icons : IconSet),
      0 ≤ ratio → ratio ≤ 1 → 10 ≤ width →
      (render_bar ratio width icons).length = width ∧
      fillLen (render_bar ratio width icons) ≤ width ∧
      (¬ icons = IconSet.NerdFont →
        (render_bar ratio width icons).count BarCell.fill = (f64round (ratio * width)).toNat ∧
        (render_bar ratio width icons).countP
          (fun c => match c with | BarCell.frac _ => true | _ => false) = 0) ∧
      (icons = IconSet.NerdFont →
        (render_bar ratio width icons).count BarCell.fill = (⌊ratio * (width:ℚ)⌋).toNat ∧
        (render_bar ratio width icons).countP
          (fun c => match c with | BarCell.frac _ => true | _ => false) ≤ 1) := by
  intro ratio width icons h0 h1 hw
  have hfw1 : ratio * (width:ℚ) ≤ (width:ℚ) :=
    mul_le_of_le_one_left (by positivity) h1
  have hround_le : (f64round (ratio * width)).toNat ≤ width := by
    apply Int.toNat_le.mpr
    have hmono : (⌊ratio * (width:ℚ) + 1/2⌋ : ℤ) ≤ ⌊((width:ℤ):ℚ) + 1/2⌋ := by
      apply Int.floor_le_floor
      push_cast
      linarith
    rw [Int.floor_int_add] at hmono
    norm_num at hmono
    simpa [f64round] using hmono
  have hfloor_le : (⌊ratio * (width:ℚ)⌋).toNat ≤ width := by
    apply Int.toNat_le.mpr
    have := Int.floor_le_floor hfw1
    simpa using this
  cases icons with
  | NerdFont =>
    rcases render_bar_eq_rich ratio width h0 h1 with heq | ⟨idx, hlt, heq⟩ <;> rw [heq]
    · refine ⟨?_, ?_, ?_, ?_⟩
      · simp only [List.length_append, List.length_replicate]
        omega
      · simp [fillLen, List.countP_append, countP_replicate]
        omega
      · intro h; exact absurd rfl h
      · intro _
        constructor
        · simp [List.count_append, List.count_replicate]
        · simp [List.countP_append, countP_replicate]
    · refine ⟨?_, ?_, ?_, ?_⟩
      · simp only [List.append_assoc, List.length_append, List.length_replicate,
          List.length_cons, List.length_nil]
        omega
      · simp [fillLen, List.append_assoc, List.countP_append, countP_replicate,
          List.countP_cons, List.countP_nil]
        omega
      · intro h; exact absurd rfl h
      · intro _
        constructor
        · simp [List.count_append, List.count_replicate]
        · simp [List.countP_append, countP_replicate]
  | Unicode =>
    rw [render_bar_eq_nonrich ratio width IconSet.Unicode h0 h1 (by simp)]
    refine ⟨?_, ?_, ?_, ?_⟩
    · simp only [List.length_append, List.length_replicate]
      omega
    · simp [fillLen, List.countP_append, countP_replicate]
      omega
    · intro _
      constructor
      · simp [List.count_append, List.count_replicate]
      · simp [List.countP_append, countP_replicate]
    · intro h; exact absurd h (by simp)
  | Ascii =>
    rw [render_bar_eq_nonrich ratio width IconSet.Ascii h0 h1 (by simp)]
    refine ⟨?_, ?_, ?_, ?_⟩
    · simp only [List.length_append, List.length_replicate]
      omega
    · simp [fillLen, List.countP_append, countP_replicate]
      omega
    · intro _
      constructor
      · simp [List.count_append, List.count_replicate]
      · simp [List.countP_append, countP_replicate]
    · intro h; exact absurd h (by simp)

/-- Witness for C8: a half-filled 30-cell Unicode bar has exactly 30 cells,
its fill never exceeds 30, and the filled-cell count is
`round(0.5 * 30) = 15` with no partial cells. -/
theorem render_bar_width_bounds_witness :
    (render_bar (1/2) 30 IconSet.Unicode).length = 30 ∧
    fillLen (render_bar (1/2) 30 IconSet.Unicode) ≤ 30 ∧
    (¬ IconSet.Unicode = IconSet.NerdFont →
      (render_bar (1/2) 30 IconSet.Unicode).count BarCell.fill =
        (f64round ((1/2) * 30)).toNat ∧
      (render_bar (1/2) 30 IconSet.Unicode).countP
        (fun c => match c with | BarCell.frac _ => true | _ => false) = 0) ∧
    (IconSet.Unicode = IconSet.NerdFont →
      (render_bar (1/2) 30 IconSet.Unicode).count BarCell.fill =
        (⌊(1/2 : ℚ) * (30:ℚ)⌋).toNat ∧
      (render_bar (1/2) 30 IconSet.Unicode).countP
        (fun c => match c with | BarCell.frac _ => true | _ => false) ≤ 1) :=
  render_bar_width_bounds (1/2) 30 IconSet.Unicode (by norm_num) (by norm_num) (by decide)

end AudioHook
